import Mathlib

/-!
Shallow embedding of the verification logic of
`src/tests/test_transactions_api.py`:

* the ordering validator `validate_transaction_ordering`,
* the JSON-schema validator `validate_transaction_structure` with its
  fixed `transaction_schema`,
* the query-parameter construction performed by `make_request`.

Python runtime behaviour is modelled explicitly: JSON values carry the
shapes produced by `response.json()`, fallible operations (dict lookup,
list indexing, ISO-8601 parsing, mixed naive/aware datetime comparison,
failed `assert`) return `Except PyError`, and the `try/except
AssertionError` handlers are modelled as a match on the inner result
together with the list of emitted log lines.
-/

namespace TxSpec

/-- Python exception classes that the modelled code can raise. -/
inductive PyError where
  | assertionError
  | keyError (k : String)
  | typeError
  | valueError
  | attributeError
  | indexError
  | pytestFailed
  deriving DecidableEq, Repr

/-- JSON values as decoded by `response.json()`.  Numbers are modelled as
rationals: a JSON number denotes an integer exactly when its denominator
is 1, matching the `jsonschema` draft-6+ rule that integral floats count
as integers while booleans never do (booleans are a separate
constructor, as in Python). -/
inductive JsonValue where
  | null
  | bool (b : Bool)
  | num (q : Rat)
  | str (s : String)
  | obj (fields : List (String × JsonValue))

/-- Python `v[k]` on a decoded JSON value: a dict lookup that raises
`KeyError` on a missing key and `TypeError` when `v` is not a dict. -/
def pyGetItem (v : JsonValue) (k : String) : Except PyError JsonValue :=
  match v with
  | .obj fields =>
    match fields.lookup k with
    | some x => .ok x
    | none => .error (.keyError k)
  | _ => .error .typeError

/-- Python `xs[i]` on a list: raises `IndexError` when out of range
(negative indices are not used by the modelled code). -/
def pyIndex (xs : List JsonValue) (i : Nat) : Except PyError JsonValue :=
  match xs[i]? with
  | some x => .ok x
  | none => .error .indexError

/-- Python `v == s` for a string literal `s`: equality between values of
different runtime types is `False`, never an error. -/
def pyEqStr (v : JsonValue) (s : String) : Bool :=
  match v with
  | .str t => t == s
  | _ => false

/-- Python `v.replace('Z', '+00:00')`: raises `AttributeError` when the
receiver is not a string. -/
def asPyStr (v : JsonValue) : Except PyError String :=
  match v with
  | .str s => .ok s
  | _ => .error .attributeError

/-- `str.replace('Z', '+00:00')`: every occurrence of the one-character
pattern `'Z'` is replaced, left to right. -/
def replaceZ (s : String) : String :=
  String.mk (s.toList.flatMap fun c =>
    if c = 'Z' then ['+', '0', '0', ':', '0', '0'] else [c])

/-! ### Model of CPython `datetime.fromisoformat`

The grammar modelled is the extended ISO-8601 form accepted across
CPython versions and exercised by the suite:
`YYYY-MM-DD` optionally followed by a single separator character and
`HH[:MM[:SS[.f{1..6}]]]`, optionally followed by a `+HH:MM` / `-HH:MM`
offset.  Field ranges are validated as the `datetime` constructor does;
a parse failure is Python's `ValueError`. -/

/-- A parsed `datetime.datetime`: calendar fields plus an optional UTC
offset in minutes (`none` = naive, `some o` = aware). -/
structure PyDatetime where
  year : Nat
  month : Nat
  day : Nat
  hour : Nat
  minute : Nat
  second : Nat
  microsecond : Nat
  utcoffset : Option Int
  deriving DecidableEq, Repr

def digitVal? (c : Char) : Option Nat :=
  if c.isDigit then some (c.toNat - 48) else none

def take2 : List Char → Option (Nat × List Char)
  | c1 :: c2 :: rest =>
    match digitVal? c1, digitVal? c2 with
    | some a, some b => some (a * 10 + b, rest)
    | _, _ => none
  | _ => none

def take4 : List Char → Option (Nat × List Char)
  | c1 :: c2 :: c3 :: c4 :: rest =>
    match digitVal? c1, digitVal? c2, digitVal? c3, digitVal? c4 with
    | some a, some b, some c, some d =>
      some (((a * 10 + b) * 10 + c) * 10 + d, rest)
    | _, _, _, _ => none
  | _ => none

def takeDigits : List Char → List Nat × List Char
  | [] => ([], [])
  | c :: rest =>
    match digitVal? c with
    | some d =>
      let p := takeDigits rest
      (d :: p.1, p.2)
    | none => ([], c :: rest)

/-- Microseconds denoted by a fractional-seconds digit string
(1 to 6 digits, right-padded with zeros). -/
def fracToMicros (ds : List Nat) : Option Nat :=
  if ds.length = 0 ∨ 6 < ds.length then none
  else some ((ds.foldl (fun a d => a * 10 + d) 0) * 10 ^ (6 - ds.length))

/-- Parse `HH[:MM[:SS[.ffffff]]]`, returning hour, minute, second,
microsecond and the unconsumed remainder. -/
def parseTime (cs : List Char) : Option (Nat × Nat × Nat × Nat × List Char) :=
  match take2 cs with
  | none => none
  | some (h, rest1) =>
    match rest1 with
    | ':' :: rest2 =>
      match take2 rest2 with
      | none => none
      | some (mi, rest3) =>
        match rest3 with
        | ':' :: rest4 =>
          match take2 rest4 with
          | none => none
          | some (s, rest5) =>
            match rest5 with
            | '.' :: rest6 =>
              let p := takeDigits rest6
              match fracToMicros p.1 with
              | none => none
              | some us => some (h, mi, s, us, p.2)
            | _ => some (h, mi, s, 0, rest5)
        | _ => some (h, mi, 0, 0, rest3)
    | _ => some (h, 0, 0, 0, rest1)

/-- Parse the magnitude `HH:MM` of a UTC offset, in minutes; the whole
offset must be strictly less than 24 hours. -/
def parseOffsetMag (cs : List Char) : Option Nat :=
  match take2 cs with
  | some (oh, ':' :: rest2) =>
    match take2 rest2 with
    | some (om, []) =>
      if om ≤ 59 ∧ oh * 60 + om < 24 * 60 then some (oh * 60 + om) else none
    | _ => none
  | _ => none

/-- Parse an optional trailing `±HH:MM` offset; `some none` means the
string ended with no offset (a naive datetime). -/
def parseOffset (cs : List Char) : Option (Option Int) :=
  match cs with
  | [] => some none
  | '+' :: rest =>
    match parseOffsetMag rest with
    | some n => some (some (Int.ofNat n))
    | none => none
  | '-' :: rest =>
    match parseOffsetMag rest with
    | some n => some (some (-(Int.ofNat n)))
    | none => none
  | _ => none

def isLeapYear (y : Nat) : Bool :=
  (y % 4 == 0 && y % 100 != 0) || y % 400 == 0

def daysInMonth (y m : Nat) : Nat :=
  if m = 2 then (if isLeapYear y then 29 else 28)
  else if m = 4 ∨ m = 6 ∨ m = 9 ∨ m = 11 then 30
  else 31

def validDate (y m d : Nat) : Bool :=
  1 ≤ y && y ≤ 9999 && 1 ≤ m && m ≤ 12 && 1 ≤ d && d ≤ daysInMonth y m

/-- `datetime.fromisoformat`: returns `none` (Python: raises
`ValueError`) when the string does not match the grammar or a field is
out of range. -/
def fromisoformat (s : String) : Option PyDatetime :=
  match take4 s.toList with
  | none => none
  | some (y, rest1) =>
    match rest1 with
    | '-' :: rest2 =>
      match take2 rest2 with
      | none => none
      | some (mo, rest3) =>
        match rest3 with
        | '-' :: rest4 =>
          match take2 rest4 with
          | none => none
          | some (d, rest5) =>
            match rest5 with
            | [] =>
              if validDate y mo d then
                some ⟨y, mo, d, 0, 0, 0, 0, none⟩
              else none
            | _sep :: rest6 =>
              match parseTime rest6 with
              | none => none
              | some (h, mi, sec, us, rest7) =>
                match parseOffset rest7 with
                | none => none
                | some off =>
                  if validDate y mo d && h ≤ 23 && mi ≤ 59 && sec ≤ 59 then
                    some ⟨y, mo, d, h, mi, sec, us, off⟩
                  else none
        | _ => none
    | _ => none

/-- Day number of a proleptic-Gregorian calendar date, counted from
0000-03-01; strictly monotone in the date for valid dates. -/
def daysSinceEra (y m d : Nat) : Nat :=
  let y2 := if m ≤ 2 then y - 1 else y
  let mp := (m + 9) % 12
  y2 * 365 + y2 / 4 - y2 / 100 + y2 / 400 + (153 * mp + 2) / 5 + d - 1

/-- Microseconds from the era origin, ignoring the UTC offset: the key
Python uses to compare two naive datetimes (field-tuple order). -/
def naiveKey (t : PyDatetime) : Nat :=
  (((daysSinceEra t.year t.month t.day * 24 + t.hour) * 60 + t.minute) * 60
      + t.second) * 1000000 + t.microsecond

/-- Python `t1 >= t2` on datetimes: naive pairs compare by field tuple,
aware pairs compare the UTC instants, and a mixed pair raises
`TypeError`. -/
def pyGe (t1 t2 : PyDatetime) : Except PyError Bool :=
  match t1.utcoffset, t2.utcoffset with
  | none, none => .ok (decide (naiveKey t2 ≤ naiveKey t1))
  | some o1, some o2 =>
    .ok (decide ((naiveKey t2 : Int) - o2 * 60000000 ≤ (naiveKey t1 : Int) - o1 * 60000000))
  | _, _ => .error .typeError

/-! ### The ordering validator -/

/-- The predicate of the comprehension
`[t for t in transactions if t['status'] == 'Pending']`. -/
def statusIsPending (t : JsonValue) : Except PyError Bool :=
  match pyGetItem t "status" with
  | .ok s => .ok (pyEqStr s "Pending")
  | .error e => .error e

/-- The predicate of the comprehension
`[t for t in transactions if t['status'] == 'Booked']`. -/
def statusIsBooked (t : JsonValue) : Except PyError Bool :=
  match pyGetItem t "status" with
  | .ok s => .ok (pyEqStr s "Booked")
  | .error e => .error e

/-- A Python list comprehension with a fallible predicate: the first
raised exception propagates. -/
def filterM (p : JsonValue → Except PyError Bool) :
    List JsonValue → Except PyError (List JsonValue)
  | [] => .ok []
  | t :: ts =>
    match p t with
    | .error e => .error e
    | .ok b =>
      match filterM p ts with
      | .error e => .error e
      | .ok rest => .ok (if b then t :: rest else rest)

/-- A Python `for` loop whose body may raise: stops at the first
exception. -/
def forExcept (xs : List α) (f : α → Except PyError Unit) : Except PyError Unit :=
  match xs with
  | [] => .ok ()
  | x :: rest =>
    match f x with
    | .error e => .error e
    | .ok _ => forExcept rest f

/-- One iteration of the placement loop:
`assert transactions[i]['status'] == 'Pending'`. -/
def placementStep (transactions : List JsonValue) (i : Nat) : Except PyError Unit :=
  match pyIndex transactions i with
  | .error e => .error e
  | .ok t =>
    match pyGetItem t "status" with
    | .error e => .error e
    | .ok s => if pyEqStr s "Pending" then .ok () else .error .assertionError

/-- The placement loop of `validate_transaction_ordering`:
`for i in range(len(pending)): assert transactions[i]['status'] == 'Pending'`. -/
def placementCheck (transactions : List JsonValue) (n : Nat) : Except PyError Unit :=
  forExcept (List.range n) (placementStep transactions)

/-- One iteration of the monotonicity loop: parse the timestamps of
`group[i]` and `group[i+1]` (after the `Z` replacement) and
`assert t1 >= t2`. -/
def monoStep (group : List JsonValue) (i : Nat) : Except PyError Unit :=
  match pyIndex group i with
  | .error e => .error e
  | .ok tx1 =>
    match pyGetItem tx1 "timestamp" with
    | .error e => .error e
    | .ok v1 =>
      match asPyStr v1 with
      | .error e => .error e
      | .ok s1 =>
        match fromisoformat (replaceZ s1) with
        | none => .error .valueError
        | some d1 =>
          match pyIndex group (i + 1) with
          | .error e => .error e
          | .ok tx2 =>
            match pyGetItem tx2 "timestamp" with
            | .error e => .error e
            | .ok v2 =>
              match asPyStr v2 with
              | .error e => .error e
              | .ok s2 =>
                match fromisoformat (replaceZ s2) with
                | none => .error .valueError
                | some d2 =>
                  match pyGe d1 d2 with
                  | .error e => .error e
                  | .ok b => if b then .ok () else .error .assertionError

/-- The monotonicity loop over one status group:
`for i in range(len(group) - 1): ... assert t1 >= t2`. -/
def monoCheckGroup (group : List JsonValue) : Except PyError Unit :=
  forExcept (List.range (group.length - 1)) (monoStep group)

/-- The body of `validate_transaction_ordering`'s `try` block: early
return on length ≤ 1, the two status comprehensions, the placement
loop, then the monotonicity loop over `[pending, booked]`. -/
def validateOrderingInner (transactions : List JsonValue) : Except PyError Unit :=
  if transactions.length ≤ 1 then .ok ()
  else
    match filterM statusIsPending transactions with
    | .error e => .error e
    | .ok pending =>
      match filterM statusIsBooked transactions with
      | .error e => .error e
      | .ok booked =>
        match placementCheck transactions pending.length with
        | .error e => .error e
        | .ok _ =>
          match monoCheckGroup pending with
          | .error e => .error e
          | .ok _ => monoCheckGroup booked

/-- `validate_transaction_ordering`, including its
`except AssertionError` handler: an assertion failure is logged and
re-raised; any other exception propagates with no log line.  The second
component is the list of log lines emitted by the call. -/
def validate_transaction_ordering (transactions : List JsonValue) :
    Except PyError Unit × List String :=
  match validateOrderingInner transactions with
  | .ok _ => (.ok (), [])
  | .error .assertionError => (.error .assertionError, ["❌ Assertion failed "])
  | .error e => (.error e, [])

/-! ### The schema validator

`transaction_schema` is a fixed JSON-schema object; `validate`
(called without a format checker, so the `date-time` format annotation
is not enforced) succeeds exactly when the instance is an object, every
required field is present, every present field is one of the schema's
ten property names (`additionalProperties: false`) and satisfies its
property subschema. -/

/-- The `required` list of `transaction_schema`; the schema's
`properties` map has exactly the same ten keys. -/
def transactionRequiredFields : List String :=
  ["transactionId", "amount", "currency", "merchantName", "timestamp",
   "type", "subType", "status", "categoryId", "description"]

/-- JSON-schema `{"type": "string"}`. -/
def isJsonString : JsonValue → Bool
  | .str _ => true
  | _ => false

/-- JSON-schema `{"type": "number"}`: booleans are not numbers. -/
def isJsonNumber : JsonValue → Bool
  | .num _ => true
  | _ => false

/-- JSON-schema `{"type": ["string", "null"]}`. -/
def isJsonStringOrNull : JsonValue → Bool
  | .str _ => true
  | .null => true
  | _ => false

/-- Subschema of `type`: `{"type": "string", "enum": ["Debit", "Credit"]}`. -/
def typeEnumOk (v : JsonValue) : Bool :=
  isJsonString v && (pyEqStr v "Debit" || pyEqStr v "Credit")

/-- Subschema of `status`: `{"type": "string", "enum": ["Pending", "Booked"]}`. -/
def statusEnumOk (v : JsonValue) : Bool :=
  isJsonString v && (pyEqStr v "Pending" || pyEqStr v "Booked")

/-- Subschema of `categoryId`:
`{"type": "integer", "minimum": 1, "maximum": 20}`.  A JSON number is an
integer when its denominator is 1; booleans and non-numbers fail the
type check, and `minimum`/`maximum` bound the numeric value. -/
def categoryIdOk : JsonValue → Bool
  | .num q => q.den == 1 && decide (1 ≤ q) && decide (q ≤ 20)
  | _ => false

/-- The property subschema attached to each of the ten schema keys; a
key with no subschema is unconstrained. -/
def transactionPropertyCheck (k : String) (v : JsonValue) : Bool :=
  if k = "transactionId" then isJsonString v
  else if k = "amount" then isJsonNumber v
  else if k = "currency" then isJsonString v
  else if k = "merchantName" then isJsonStringOrNull v
  else if k = "timestamp" then isJsonString v
  else if k = "type" then typeEnumOk v
  else if k = "subType" then isJsonString v
  else if k = "status" then statusEnumOk v
  else if k = "categoryId" then categoryIdOk v
  else if k = "description" then isJsonString v
  else true

/-- `jsonschema.validate(instance, transaction_schema)` as a Boolean:
`true` exactly when no `ValidationError` is raised. -/
def transactionSchemaValid : JsonValue → Bool
  | .obj fields =>
    (transactionRequiredFields.all fun f => fields.any fun kv => kv.1 == f) &&
    (fields.all fun kv =>
      transactionRequiredFields.contains kv.1 && transactionPropertyCheck kv.1 kv.2)
  | _ => false

/-- `validate_transaction_structure`: a `ValidationError` is caught,
logged and converted into `pytest.fail`, so the caller observes either
a silent success or a pytest failure. -/
def validate_transaction_structure (transaction : JsonValue) : Except PyError Unit :=
  if transactionSchemaValid transaction then .ok () else .error .pytestFailed

/-! ### The query-parameter construction of `make_request` -/

/-- Python values passed as keyword parameters to `make_request`. -/
inductive PyValue where
  | str (s : String)
  | int (n : Int)
  | bool (b : Bool)
  | none_
  deriving DecidableEq, Repr

/-- Python dict assignment `params[k] = v`: updates the binding in
place when the key is present, appends it otherwise. -/
def dictSet : List (String × PyValue) → String → PyValue → List (String × PyValue)
  | [], k, v => [(k, v)]
  | (k', v') :: rest, k, v =>
    if k' = k then (k, v) :: rest else (k', v') :: dictSet rest k v

/-- The loop body `if isinstance(value, bool): params[key] = str(value).lower()`:
booleans become the strings `"true"` / `"false"`, everything else is
untouched. -/
def boolNorm : PyValue → PyValue
  | .bool b => .str (if b then "true" else "false")
  | v => v

/-- The query-parameter dict that `make_request` hands to
`requests.get`: the positional `customer_id` is stored under
`'customerId'` (overwriting any keyword binding), then every
boolean-valued entry is rewritten to its lowercase textual form.  The
HTTP call itself is external I/O and out of scope. -/
def make_request_params (customer_id : PyValue)
    (params : List (String × PyValue)) : List (String × PyValue) :=
  (dictSet params "customerId" customer_id).map fun kv => (kv.1, boolNorm kv.2)

/-- Python dict lookup `d[k]` as an option (first binding wins; the
modelled dicts never carry duplicate keys). -/
def pyLookup (k : String) : List (String × PyValue) → Option PyValue
  | [] => none
  | (k', v) :: rest => if k' = k then some v else pyLookup k rest

/-! ### Predicates used by the theorem statements, and concrete fixtures -/

/-- Every element of the list is a record whose `status` field is the
string `"Pending"` or the string `"Booked"`. -/
def StatusOk (ts : List JsonValue) : Prop :=
  ∀ t ∈ ts, pyGetItem t "status" = .ok (.str "Pending") ∨
    pyGetItem t "status" = .ok (.str "Booked")

/-- Total version of the `Pending` comprehension predicate (meaningful
on elements whose `status` lookup succeeds). -/
def isPendingT (t : JsonValue) : Bool :=
  match pyGetItem t "status" with
  | .ok s => pyEqStr s "Pending"
  | .error _ => false

/-- Within a group taken in original order, every pair of consecutive
elements carries string timestamps that, after the `Z` replacement,
parse and compare as non-increasing under Python's `>=`. -/
def consecutiveNonIncreasing (g : List JsonValue) : Prop :=
  ∀ i t1 t2, g[i]? = some t1 → g[i + 1]? = some t2 →
    ∃ s1 s2 d1 d2,
      pyGetItem t1 "timestamp" = .ok (.str s1) ∧
      pyGetItem t2 "timestamp" = .ok (.str s2) ∧
      fromisoformat (replaceZ s1) = some d1 ∧
      fromisoformat (replaceZ s2) = some d2 ∧
      pyGe d1 d2 = .ok true

/-- Number of `true` entries of a Boolean list. -/
def cntT (bs : List Bool) : Nat := (bs.filter id).length

/-- Fixture: a 'Pending' transaction with the newer timestamp. -/
def txPendingNewer : JsonValue :=
  .obj [("status", .str "Pending"), ("timestamp", .str "2025-06-05T10:00:00Z")]

/-- Fixture: a 'Pending' transaction with the older timestamp. -/
def txPendingOlder : JsonValue :=
  .obj [("status", .str "Pending"), ("timestamp", .str "2025-06-04T10:00:00Z")]

/-- Fixture: a 'Booked' transaction. -/
def txBooked : JsonValue :=
  .obj [("status", .str "Booked"), ("timestamp", .str "2025-06-03T10:00:00Z")]

/-- Fixture: a 'Pending' transaction whose timestamp is not ISO-8601. -/
def txBadTimestamp : JsonValue :=
  .obj [("status", .str "Pending"), ("timestamp", .str "not-a-date")]

/-- Fixture: the fields of a fully schema-conforming transaction. -/
def validTxFields : List (String × JsonValue) :=
  [("transactionId", .str "t1"), ("amount", .num (-5)), ("currency", .str "EUR"),
   ("merchantName", .null), ("timestamp", .str "2025-06-05T10:00:00Z"),
   ("type", .str "Debit"), ("subType", .str "x"), ("status", .str "Pending"),
   ("categoryId", .num 11), ("description", .str "d")]

example : fromisoformat "2025-06-05T10:00:00+00:00" =
    some ⟨2025, 6, 5, 10, 0, 0, 0, some 0⟩ := by decide

example : fromisoformat (replaceZ "2025-06-05T10:20:30.5Z") =
    some ⟨2025, 6, 5, 10, 20, 30, 500000, some 0⟩ := by decide

example : fromisoformat "2025-02-30" = none := by decide

example : validate_transaction_ordering [txBooked, txPendingOlder] =
    (.error .assertionError, ["❌ Assertion failed "]) := rfl

/-! ### General lemmas about the modelled control flow -/

theorem forExcept_ok_iff (xs : List α) (f : α → Except PyError Unit) :
    forExcept xs f = .ok () ↔ ∀ x ∈ xs, f x = .ok () := by
  induction xs with
  | nil => simp [forExcept]
  | cons x rest ih =>
    constructor
    · intro h y hy
      unfold forExcept at h
      cases hfx : f x with
      | error e => rw [hfx] at h; exact absurd h (by simp)
      | ok u =>
        rw [hfx] at h
        rcases List.mem_cons.mp hy with rfl | hy'
        · cases u; exact hfx
        · exact ih.mp h y hy'
    · intro h
      unfold forExcept
      rw [h x (List.mem_cons_self x rest)]
      exact ih.mpr fun y hy => h y (List.mem_cons_of_mem x hy)

theorem asPyStr_ok {v : JsonValue} {s : String} (h : asPyStr v = .ok s) :
    v = .str s := by
  cases v <;> simp [asPyStr] at h
  rw [h]

/-! ### Claim C6: trivial acceptance of lists of length 0 or 1 -/

/-- Claim C6: for every transaction list of length 0 or 1,
`validate_transaction_ordering` returns without raising and logs
nothing, regardless of the contents of the element (the early return
fires before any field of the element is inspected). -/
theorem ordering_trivial_acceptance (ts : List JsonValue) (h : ts.length ≤ 1) :
    validate_transaction_ordering ts = (.ok (), []) := by
  have hinner : validateOrderingInner ts = .ok () := by
    unfold validateOrderingInner
    rw [if_pos h]
  unfold validate_transaction_ordering
  rw [hinner]

/-- Witness for C6: a singleton list whose element is not even a record
passes the ordering validator. -/
theorem ordering_trivial_acceptance_witness :
    [JsonValue.str "garbage"].length ≤ 1 ∧
    validate_transaction_ordering [JsonValue.str "garbage"] = (.ok (), []) :=
  ⟨by decide, ordering_trivial_acceptance [JsonValue.str "garbage"] (by decide)⟩

/-! ### Claim C8: assertion failures are logged and re-raised -/

/-- Claim C8: whenever the body of `validate_transaction_ordering`
raises an `AssertionError`, the function logs exactly one error line
and re-raises the same `AssertionError`; the failure is never
swallowed.  (The embedding is pure, so the input list is unchanged by
construction.) -/
theorem ordering_assertion_logged_and_reraised (ts : List JsonValue)
    (h : validateOrderingInner ts = .error .assertionError) :
    validate_transaction_ordering ts = (.error .assertionError, ["❌ Assertion failed "]) := by
  unfold validate_transaction_ordering
  rw [h]

/-- Witness for C8: a 'Booked'-before-'Pending' list makes the body
raise an `AssertionError`, which is logged and re-raised. -/
theorem ordering_assertion_logged_and_reraised_witness :
    validateOrderingInner [txBooked, txPendingOlder] = .error .assertionError ∧
    validate_transaction_ordering [txBooked, txPendingOlder] =
      (.error .assertionError, ["❌ Assertion failed "]) :=
  ⟨rfl, ordering_assertion_logged_and_reraised [txBooked, txPendingOlder] rfl⟩

/-! ### Claim C9: non-assertion errors bypass the logging handler -/

/-- Claim C9: there is a transaction list — two elements sharing the
status 'Pending', with a timestamp that is not ISO-8601 after the `Z`
replacement — on which `validate_transaction_ordering` raises a
`ValueError`, which is not an `AssertionError`, and emits no log line:
the handler catches only assertion failures. -/
theorem ordering_parse_error_unlogged :
    pyGetItem txBadTimestamp "status" = .ok (.str "Pending") ∧
    fromisoformat (replaceZ "not-a-date") = none ∧
    validate_transaction_ordering [txBadTimestamp, txBadTimestamp] =
      (.error .valueError, []) ∧
    PyError.valueError ≠ PyError.assertionError :=
  ⟨rfl, rfl, rfl, by decide⟩

/-! ### Lemmas about the query-parameter construction -/

theorem pyLookup_dictSet (d : List (String × PyValue)) (k : String) (v : PyValue) :
    pyLookup k (dictSet d k v) = some v := by
  induction d with
  | nil => simp [dictSet, pyLookup]
  | cons kv rest ih =>
    by_cases h : kv.1 = k
    · simp [dictSet, h, pyLookup]
    · simp [dictSet, h, pyLookup, ih]

theorem pyLookup_map_boolNorm (d : List (String × PyValue)) (k : String) :
    pyLookup k (d.map fun kv => (kv.1, boolNorm kv.2)) =
      (pyLookup k d).map boolNorm := by
  induction d with
  | nil => simp [pyLookup]
  | cons kv rest ih =>
    by_cases h : kv.1 = k
    · simp [pyLookup, h]
    · simp [pyLookup, h, ih]

theorem boolNorm_ne_bool (v : PyValue) (b : Bool) : boolNorm v ≠ .bool b := by
  cases v <;> simp [boolNorm]

/-! ### Claim C4: boolean parameters are serialized as lowercase strings -/

/-- Claim C4: in the query-parameter dict produced by `make_request`
(the keyword parameters together with the `customerId` binding), every
boolean-valued entry appears as the lowercase string `"true"` /
`"false"`, every non-boolean entry appears with its value unchanged,
and no entry of the produced dict is a native boolean. -/
theorem make_request_bool_serialization (cid : PyValue)
    (params : List (String × PyValue)) :
    (∀ k v, (k, v) ∈ dictSet params "customerId" cid →
      (∀ b, v = PyValue.bool b →
        (k, PyValue.str (if b then "true" else "false")) ∈ make_request_params cid params) ∧
      ((∀ b, v ≠ PyValue.bool b) → (k, v) ∈ make_request_params cid params)) ∧
    (∀ k w, (k, w) ∈ make_request_params cid params → ∀ b, w ≠ PyValue.bool b) := by
  constructor
  · intro k v hv
    have hmem : (k, boolNorm v) ∈ make_request_params cid params := by
      unfold make_request_params
      exact List.mem_map_of_mem (fun kv => (kv.1, boolNorm kv.2)) hv
    constructor
    · intro b hb
      rw [hb] at hmem
      exact hmem
    · intro hnb
      have : boolNorm v = v := by
        cases v with
        | bool b => exact absurd rfl (hnb b)
        | str s => rfl
        | int n => rfl
        | none_ => rfl
      rw [this] at hmem
      exact hmem
  · intro k w hw b
    unfold make_request_params at hw
    rcases List.mem_map.mp hw with ⟨kv, _, hkv⟩
    have : w = boolNorm kv.2 := congrArg Prod.snd hkv.symm
    rw [this]
    exact boolNorm_ne_bool kv.2 b

/-- Witness for C4: with a boolean and an integer keyword parameter,
the boolean is sent as the string `"false"` and the integer is sent
unchanged. -/
theorem make_request_bool_serialization_witness :
    ("includePending", PyValue.str "false") ∈
      make_request_params (.str "abc") [("includePending", .bool false), ("categoryId", .int 11)] ∧
    ("categoryId", PyValue.int 11) ∈
      make_request_params (.str "abc") [("includePending", .bool false), ("categoryId", .int 11)] :=
  ⟨((make_request_bool_serialization (.str "abc")
        [("includePending", .bool false), ("categoryId", .int 11)]).1
      "includePending" (.bool false) (by decide)).1 false rfl,
   ((make_request_bool_serialization (.str "abc")
        [("includePending", .bool false), ("categoryId", .int 11)]).1
      "categoryId" (.int 11) (by decide)).2 (by intro b h; exact PyValue.noConfusion h)⟩

/-! ### Claim C10: the positional customer id wins -/

/-- Counterexample to C10 as stated: when the positional `customer_id`
argument is itself a boolean, the produced dict binds `'customerId'` to
the normalized string, not to the positional argument's value. -/
theorem make_request_customer_id_counterexample :
    pyLookup "customerId" (make_request_params (.bool true) []) = some (.str "true") ∧
    PyValue.str "true" ≠ PyValue.bool true :=
  ⟨rfl, by decide⟩

/-- Claim C10 (amended): for every call, the produced query-parameter
dict binds `'customerId'` to the boolean-normalized positional
`customer_id` argument — identical to the argument unless it is a
boolean — even when a conflicting `'customerId'` keyword parameter was
supplied: the positional argument overwrites it. -/
theorem make_request_customer_id_overwrites (cid : PyValue)
    (params : List (String × PyValue)) :
    pyLookup "customerId" (make_request_params cid params) = some (boolNorm cid) := by
  unfold make_request_params
  rw [pyLookup_map_boolNorm, pyLookup_dictSet]
  rfl

/-! ### Claims about the schema validator -/

theorem transactionPropertyCheck_categoryId (v : JsonValue) :
    transactionPropertyCheck "categoryId" v = categoryIdOk v := rfl

/-- Counterexample to C3 as stated: the fixed field list of the schema
(§3's list, the schema's `required` list and its `properties` keys) has
ten entries, not eleven. -/
theorem transaction_schema_field_count :
    transactionRequiredFields.length = 10 ∧ ¬ transactionRequiredFields.length = 11 := by
  decide

/-- Claim C3 (amended: the schema names ten fields, not eleven): the
schema validator accepts a record only if all ten fields of the schema
are present — the absence of any one of them makes
`validate_transaction_structure` report a validation failure. -/
theorem schema_requires_all_fields (fields : List (String × JsonValue)) (f : String)
    (hf : f ∈ transactionRequiredFields) (habs : ∀ v, (f, v) ∉ fields) :
    validate_transaction_structure (.obj fields) = .error .pytestFailed := by
  have hA : (transactionRequiredFields.all fun f' => fields.any fun kv => kv.1 == f') = false := by
    apply Bool.eq_false_iff.mpr
    intro hall
    rcases List.any_eq_true.mp (List.all_eq_true.mp hall f hf) with ⟨kv, hkv, hbeq⟩
    have hk : kv.1 = f := by simpa using hbeq
    exact habs kv.2 (by rw [← hk, Prod.mk.eta]; exact hkv)
  have hvalid : transactionSchemaValid (.obj fields) = false := by
    simp only [transactionSchemaValid]
    rw [hA]
    simp
  unfold validate_transaction_structure
  rw [hvalid]
  simp

/-- Witness for C3 (amended): the empty record lacks `amount`, so the
validator fails on it. -/
theorem schema_requires_all_fields_witness :
    "amount" ∈ transactionRequiredFields ∧
    validate_transaction_structure (.obj []) = .error .pytestFailed :=
  ⟨by decide,
   schema_requires_all_fields [] "amount" (by decide)
     (fun v h => (List.not_mem_nil ("amount", v)) h)⟩

/-- Claim C5: the schema is closed — any record containing a key
outside the fixed ten-field set is rejected by
`validate_transaction_structure`. -/
theorem schema_rejects_extra_fields (fields : List (String × JsonValue))
    (k : String) (v : JsonValue) (hmem : (k, v) ∈ fields)
    (hk : k ∉ transactionRequiredFields) :
    validate_transaction_structure (.obj fields) = .error .pytestFailed := by
  have hB : (fields.all fun kv =>
      transactionRequiredFields.contains kv.1 && transactionPropertyCheck kv.1 kv.2) = false := by
    apply Bool.eq_false_iff.mpr
    intro hall
    have h1 := List.all_eq_true.mp hall (k, v) hmem
    have h2 : transactionRequiredFields.contains k = true := by
      have := Bool.and_elim_left h1
      simpa using this
    exact hk (by simpa [List.contains] using (List.elem_iff.mp h2))
  have hvalid : transactionSchemaValid (.obj fields) = false := by
    simp only [transactionSchemaValid]
    rw [hB]
    simp
  unfold validate_transaction_structure
  rw [hvalid]
  simp

/-- Witness for C5: a record with the unknown key `"extra"` fails
validation. -/
theorem schema_rejects_extra_fields_witness :
    "extra" ∉ transactionRequiredFields ∧
    validate_transaction_structure (.obj [("extra", .null)]) = .error .pytestFailed :=
  ⟨by decide,
   schema_rejects_extra_fields [("extra", .null)] "extra" .null
     (List.mem_cons_self _ _) (by decide)⟩

/-- Claim C7: the schema validator accepts a record only if its
`categoryId` field is an integer in [1, 20]; a `categoryId` entry that
is not an integer in that range makes the validator fail. -/
theorem schema_categoryId_range (fields : List (String × JsonValue)) :
    (validate_transaction_structure (.obj fields) = .ok () →
      ∃ q : Rat, ("categoryId", JsonValue.num q) ∈ fields ∧ q.den = 1 ∧ 1 ≤ q ∧ q ≤ 20) ∧
    (∀ v, ("categoryId", v) ∈ fields → categoryIdOk v = false →
      validate_transaction_structure (.obj fields) = .error .pytestFailed) := by
  constructor
  · intro hok
    have hvalid : transactionSchemaValid (.obj fields) = true := by
      by_contra hne
      have : transactionSchemaValid (.obj fields) = false := Bool.eq_false_iff.mpr hne
      unfold validate_transaction_structure at hok
      rw [this] at hok
      simp at hok
    simp only [transactionSchemaValid] at hvalid
    have hreq := Bool.and_elim_left hvalid
    have hprops := Bool.and_elim_right hvalid
    have hcat : (fields.any fun kv => kv.1 == "categoryId") = true :=
      List.all_eq_true.mp hreq "categoryId" (by decide)
    rcases List.any_eq_true.mp hcat with ⟨kv, hkv, hbeq⟩
    have hk : kv.1 = "categoryId" := by simpa using hbeq
    have hchk := List.all_eq_true.mp hprops kv hkv
    have hprop : transactionPropertyCheck kv.1 kv.2 = true := Bool.and_elim_right hchk
    rw [hk, transactionPropertyCheck_categoryId] at hprop
    cases hv : kv.2 with
    | num q =>
      rw [hv] at hprop
      unfold categoryIdOk at hprop
      have hden : q.den = 1 := by
        have := Bool.and_elim_left (Bool.and_elim_left hprop)
        simpa using this
      have h1 : 1 ≤ q := by
        have := Bool.and_elim_right (Bool.and_elim_left hprop)
        simpa using this
      have h2 : q ≤ 20 := by
        have := Bool.and_elim_right hprop
        simpa using this
      refine ⟨q, ?_, hden, h1, h2⟩
      rw [← hv, ← hk, Prod.mk.eta]
      exact hkv
    | null => rw [hv] at hprop; exact absurd hprop (by simp [categoryIdOk])
    | bool b => rw [hv] at hprop; exact absurd hprop (by simp [categoryIdOk])
    | str s => rw [hv] at hprop; exact absurd hprop (by simp [categoryIdOk])
    | obj o => rw [hv] at hprop; exact absurd hprop (by simp [categoryIdOk])
  · intro v hmem hbad
    have hB : (fields.all fun kv =>
        transactionRequiredFields.contains kv.1 && transactionPropertyCheck kv.1 kv.2) = false := by
      apply Bool.eq_false_iff.mpr
      intro hall
      have h1 := List.all_eq_true.mp hall ("categoryId", v) hmem
      have h2 : transactionPropertyCheck "categoryId" v = true := Bool.and_elim_right h1
      rw [transactionPropertyCheck_categoryId] at h2
      rw [h2] at hbad
      exact Bool.noConfusion hbad
    have hvalid : transactionSchemaValid (.obj fields) = false := by
      simp only [transactionSchemaValid]
      rw [hB]
      simp
    unfold validate_transaction_structure
    rw [hvalid]
    simp

/-- Witness for C7: the valid fixture record is accepted and exhibits
an in-range integer `categoryId`; a record whose `categoryId` is a
string fails validation. -/
theorem schema_categoryId_range_witness :
    (∃ q : Rat, ("categoryId", JsonValue.num q) ∈ validTxFields ∧
      q.den = 1 ∧ 1 ≤ q ∧ q ≤ 20) ∧
    validate_transaction_structure (.obj [("categoryId", .str "x")]) = .error .pytestFailed :=
  ⟨(schema_categoryId_range validTxFields).1 rfl,
   (schema_categoryId_range [("categoryId", .str "x")]).2 (.str "x")
     (List.mem_cons_self _ _) rfl⟩

/-! ### Claim C1: the placement check accepts exactly the
Pending-before-Booked arrangements -/

theorem mem_of_idx {l : List α} {n : Nat} {a : α} (h : l[n]? = some a) : a ∈ l := by
  rcases List.getElem?_eq_some_iff.mp h with ⟨hlt, rfl⟩
  exact List.getElem_mem hlt

theorem statusIsPending_eq (t : JsonValue)
    (ht : pyGetItem t "status" = .ok (.str "Pending") ∨
      pyGetItem t "status" = .ok (.str "Booked")) :
    statusIsPending t = .ok (isPendingT t) := by
  unfold statusIsPending isPendingT
  rcases ht with h | h <;> rw [h]

theorem filterM_pending_eq (ts : List JsonValue) (H : StatusOk ts) :
    filterM statusIsPending ts = .ok (ts.filter isPendingT) := by
  induction ts with
  | nil => rfl
  | cons t rest ih =>
    have ht := H t (List.mem_cons_self t rest)
    have hrest : StatusOk rest := fun x hx => H x (List.mem_cons_of_mem t hx)
    unfold filterM
    rw [statusIsPending_eq t ht]
    rw [ih hrest]
    rw [List.filter_cons]

theorem isPendingT_true_iff (t : JsonValue)
    (ht : pyGetItem t "status" = .ok (.str "Pending") ∨
      pyGetItem t "status" = .ok (.str "Booked")) :
    isPendingT t = true ↔ pyGetItem t "status" = .ok (.str "Pending") := by
  rcases ht with h | h <;> unfold isPendingT <;> rw [h] <;> simp [pyEqStr, h]

theorem isPendingT_false_iff (t : JsonValue)
    (ht : pyGetItem t "status" = .ok (.str "Pending") ∨
      pyGetItem t "status" = .ok (.str "Booked")) :
    isPendingT t = false ↔ pyGetItem t "status" = .ok (.str "Booked") := by
  rcases ht with h | h <;> unfold isPendingT <;> rw [h] <;> simp [pyEqStr, h]

theorem placementStep_ok_iff (ts : List JsonValue) (H : StatusOk ts) (i : Nat) :
    placementStep ts i = .ok () ↔ (ts.map isPendingT)[i]? = some true := by
  rw [List.getElem?_map]
  cases hgi : ts[i]? with
  | none => simp [placementStep, pyIndex, hgi]
  | some t =>
    have hidx : pyIndex ts i = .ok t := by unfold pyIndex; rw [hgi]
    rcases H t (mem_of_idx hgi) with h | h <;>
      simp [placementStep, hidx, hgi, h, pyEqStr, isPendingT]

theorem cntT_eq_zero_iff (bs : List Bool) :
    cntT bs = 0 ↔ ∀ j : Nat, bs[j]? ≠ some true := by
  unfold cntT
  rw [List.length_eq_zero, List.filter_eq_nil_iff]
  constructor
  · intro h j hj
    exact absurd rfl (h true (mem_of_idx hj))
  · intro h a ha hid
    cases a with
    | false => exact Bool.noConfusion hid
    | true =>
      rcases List.mem_iff_getElem?.mp ha with ⟨j, hj⟩
      exact h j hj

/-- The combinatorial core of the placement check: the first `cntT bs`
entries of a Boolean list are all `true` exactly when no `false` entry
precedes a `true` entry. -/
theorem firstCnt_true_iff (bs : List Bool) :
    (∀ i, i < cntT bs → bs[i]? = some true) ↔
    (∀ i j : Nat, i < j → bs[i]? = some false → bs[j]? ≠ some true) := by
  induction bs with
  | nil =>
    constructor
    · intro _ i j _ hi _
      simp at hi
    · intro _ i hi
      simp [cntT] at hi
  | cons b rest ih =>
    cases b with
    | false =>
      have hcnt : cntT (false :: rest) = cntT rest := by simp [cntT]
      constructor
      · intro h i j hij hi hj
        have hzero : cntT rest = 0 := by
          by_contra hnz
          have hpos : 0 < cntT (false :: rest) := by omega
          have h0 := h 0 hpos
          simp at h0
        cases j with
        | zero => exact absurd hij (Nat.not_lt_zero i)
        | succ j' =>
          rw [List.getElem?_cons_succ] at hj
          exact (cntT_eq_zero_iff rest).mp hzero j' hj
      · intro h i hi
        have hzero : cntT rest = 0 := by
          rw [cntT_eq_zero_iff]
          intro j hj
          exact h 0 (j + 1) (Nat.succ_pos j) List.getElem?_cons_zero
            (by rw [List.getElem?_cons_succ]; exact hj)
        rw [hcnt, hzero] at hi
        exact absurd hi (Nat.not_lt_zero i)
    | true =>
      have hcnt : cntT (true :: rest) = cntT rest + 1 := by simp [cntT]
      have hL : (∀ i, i < cntT (true :: rest) → (true :: rest)[i]? = some true) ↔
          (∀ i, i < cntT rest → rest[i]? = some true) := by
        rw [hcnt]
        constructor
        · intro h i hi
          have := h (i + 1) (by omega)
          rwa [List.getElem?_cons_succ] at this
        · intro h i hi
          cases i with
          | zero => exact List.getElem?_cons_zero
          | succ i' =>
            rw [List.getElem?_cons_succ]
            exact h i' (by omega)
      have hR : (∀ i j : Nat, i < j → (true :: rest)[i]? = some false →
            (true :: rest)[j]? ≠ some true) ↔
          (∀ i j : Nat, i < j → rest[i]? = some false → rest[j]? ≠ some true) := by
        constructor
        · intro h i j hij hi
          have := h (i + 1) (j + 1) (by omega)
            (by rw [List.getElem?_cons_succ]; exact hi)
          rwa [List.getElem?_cons_succ] at this
        · intro h i j hij hi
          cases i with
          | zero => simp at hi
          | succ i' =>
            cases j with
            | zero => exact absurd hij (by omega)
            | succ j' =>
              rw [List.getElem?_cons_succ] at hi ⊢
              exact h i' j' (by omega) hi
      rw [hL, hR]
      exact ih

/-- Claim C1: for a transaction list whose elements' `status` is
`'Pending'` or `'Booked'`, the placement check of
`validate_transaction_ordering` (the loop asserting
`transactions[i]['status'] == 'Pending'` for the first `len(pending)`
indices) succeeds if and only if no `'Booked'` element appears at an
earlier index than some `'Pending'` element. -/
theorem placement_ok_iff_pending_first (ts : List JsonValue) (p : List JsonValue)
    (H : StatusOk ts) (hp : filterM statusIsPending ts = .ok p) :
    placementCheck ts p.length = .ok () ↔
      ∀ (i j : Nat) (ti tj : JsonValue), i < j → ts[i]? = some ti → ts[j]? = some tj →
        pyGetItem ti "status" = .ok (.str "Booked") →
        ¬ pyGetItem tj "status" = .ok (.str "Pending") := by
  have hpfilter : p = ts.filter isPendingT := by
    have heq := filterM_pending_eq ts H
    rw [hp] at heq
    exact Except.ok.inj heq
  have hlen : p.length = cntT (ts.map isPendingT) := by
    rw [hpfilter]
    unfold cntT
    rw [List.filter_map]
    simp [Function.comp]
  have hplace : placementCheck ts p.length = .ok () ↔
      ∀ i, i < p.length → (ts.map isPendingT)[i]? = some true := by
    unfold placementCheck
    rw [forExcept_ok_iff]
    constructor
    · intro h i hi
      exact (placementStep_ok_iff ts H i).mp (h i (List.mem_range.mpr hi))
    · intro h i hi
      exact (placementStep_ok_iff ts H i).mpr (h i (List.mem_range.mp hi))
  rw [hplace, hlen, firstCnt_true_iff (ts.map isPendingT)]
  constructor
  · intro h i j ti tj hij hgi hgj hbooked hpending
    have hfi : (ts.map isPendingT)[i]? = some false := by
      rw [List.getElem?_map, hgi]
      simp [(isPendingT_false_iff ti (H ti (mem_of_idx hgi))).mpr hbooked]
    have htj : (ts.map isPendingT)[j]? = some true := by
      rw [List.getElem?_map, hgj]
      simp [(isPendingT_true_iff tj (H tj (mem_of_idx hgj))).mpr hpending]
    exact h i j hij hfi htj
  · intro h i j hij hfi htj
    rw [List.getElem?_map] at hfi htj
    cases hgi : ts[i]? with
    | none => rw [hgi] at hfi; simp at hfi
    | some ti =>
      cases hgj : ts[j]? with
      | none => rw [hgj] at htj; simp at htj
      | some tj =>
        rw [hgi] at hfi
        rw [hgj] at htj
        simp at hfi htj
        have hbooked : pyGetItem ti "status" = .ok (.str "Booked") :=
          (isPendingT_false_iff ti (H ti (mem_of_idx hgi))).mp hfi
        have hpending : pyGetItem tj "status" = .ok (.str "Pending") :=
          (isPendingT_true_iff tj (H tj (mem_of_idx hgj))).mp htj
        exact h i j ti tj hij hgi hgj hbooked hpending

/-- Witness for C1: on the list `[Pending, Booked]` the placement check
succeeds, and the theorem's equivalence is available at that input. -/
theorem placement_ok_iff_pending_first_witness :
    (placementCheck [txPendingNewer, txBooked] 1 = .ok () ↔
      ∀ (i j : Nat) (ti tj : JsonValue), i < j →
        [txPendingNewer, txBooked][i]? = some ti →
        [txPendingNewer, txBooked][j]? = some tj →
        pyGetItem ti "status" = .ok (.str "Booked") →
        ¬ pyGetItem tj "status" = .ok (.str "Pending")) ∧
    placementCheck [txPendingNewer, txBooked] 1 = .ok () :=
  ⟨placement_ok_iff_pending_first [txPendingNewer, txBooked] [txPendingNewer]
    (by
      intro t htm
      rcases List.mem_cons.mp htm with rfl | htm'
      · exact Or.inl rfl
      · rcases List.mem_cons.mp htm' with rfl | htm''
        · exact Or.inr rfl
        · exact absurd htm'' (List.not_mem_nil t))
    rfl, rfl⟩

/-! ### Claim C2: success of the ordering validator implies sorted
timestamps within each status group -/

theorem monoStep_ok_elim {g : List JsonValue} {i : Nat} {t1 t2 : JsonValue}
    (h1 : g[i]? = some t1) (h2 : g[i + 1]? = some t2)
    (hok : monoStep g i = .ok ()) :
    ∃ s1 s2 d1 d2,
      pyGetItem t1 "timestamp" = .ok (.str s1) ∧
      pyGetItem t2 "timestamp" = .ok (.str s2) ∧
      fromisoformat (replaceZ s1) = some d1 ∧
      fromisoformat (replaceZ s2) = some d2 ∧
      pyGe d1 d2 = .ok true := by
  have hidx1 : pyIndex g i = .ok t1 := by unfold pyIndex; rw [h1]
  have hidx2 : pyIndex g (i + 1) = .ok t2 := by unfold pyIndex; rw [h2]
  cases hg1 : pyGetItem t1 "timestamp" with
  | error e => simp [monoStep, hidx1, hg1] at hok
  | ok v1 =>
  cases hs1 : asPyStr v1 with
  | error e => simp [monoStep, hidx1, hg1, hs1] at hok
  | ok s1 =>
  cases hd1 : fromisoformat (replaceZ s1) with
  | none => simp [monoStep, hidx1, hg1, hs1, hd1] at hok
  | some d1 =>
  cases hg2 : pyGetItem t2 "timestamp" with
  | error e => simp [monoStep, hidx1, hg1, hs1, hd1, hidx2, hg2] at hok
  | ok v2 =>
  cases hs2 : asPyStr v2 with
  | error e => simp [monoStep, hidx1, hg1, hs1, hd1, hidx2, hg2, hs2] at hok
  | ok s2 =>
  cases hd2 : fromisoformat (replaceZ s2) with
  | none => simp [monoStep, hidx1, hg1, hs1, hd1, hidx2, hg2, hs2, hd2] at hok
  | some d2 =>
  cases hge : pyGe d1 d2 with
  | error e => simp [monoStep, hidx1, hg1, hs1, hd1, hidx2, hg2, hs2, hd2, hge] at hok
  | ok bcmp =>
  cases bcmp with
  | false => simp [monoStep, hidx1, hg1, hs1, hd1, hidx2, hg2, hs2, hd2, hge] at hok
  | true =>
    exact ⟨s1, s2, d1, d2, by rw [asPyStr_ok hs1], by rw [asPyStr_ok hs2],
      hd1, hd2, hge⟩

theorem monoCheckGroup_consecutive {g : List JsonValue}
    (h : monoCheckGroup g = .ok ()) : consecutiveNonIncreasing g := by
  intro i t1 t2 h1 h2
  rcases List.getElem?_eq_some_iff.mp h2 with ⟨hlt, _⟩
  have hmem : i ∈ List.range (g.length - 1) := List.mem_range.mpr (by omega)
  have hstep := (forExcept_ok_iff (List.range (g.length - 1)) (monoStep g)).mp h i hmem
  exact monoStep_ok_elim h1 h2 hstep

theorem inner_ok_of_validate_ok {ts : List JsonValue}
    (h : validate_transaction_ordering ts = (.ok (), [])) :
    validateOrderingInner ts = .ok () := by
  unfold validate_transaction_ordering at h
  cases hi : validateOrderingInner ts with
  | ok u => cases u; rfl
  | error e =>
    rw [hi] at h
    cases e <;> simp at h

/-- Claim C2: for a transaction list of length at least 2,
`validate_transaction_ordering` succeeds only if — within the Pending
comprehension result and within the Booked comprehension result, each
taken in original order — every pair of consecutive elements carries
timestamps that are non-increasing once their `Z` occurrences are
replaced by `+00:00` and the strings are parsed as ISO-8601 instants. -/
theorem ordering_success_implies_sorted (ts : List JsonValue)
    (h2 : 2 ≤ ts.length)
    (hok : validate_transaction_ordering ts = (.ok (), []))
    (p b : List JsonValue)
    (hp : filterM statusIsPending ts = .ok p)
    (hb : filterM statusIsBooked ts = .ok b) :
    consecutiveNonIncreasing p ∧ consecutiveNonIncreasing b := by
  have hinner := inner_ok_of_validate_ok hok
  unfold validateOrderingInner at hinner
  rw [if_neg (by omega)] at hinner
  simp only [hp, hb] at hinner
  cases hpl : placementCheck ts p.length with
  | error e =>
    simp only [hpl] at hinner
    exact Except.noConfusion hinner
  | ok u =>
    cases u
    simp only [hpl] at hinner
    cases hm1 : monoCheckGroup p with
    | error e =>
      simp only [hm1] at hinner
      exact Except.noConfusion hinner
    | ok u2 =>
      cases u2
      simp only [hm1] at hinner
      exact ⟨monoCheckGroup_consecutive hm1, monoCheckGroup_consecutive hinner⟩

/-- Witness for C2: a two-element all-Pending list with descending
timestamps passes the validator, and the theorem yields the sortedness
of both comprehension results. -/
theorem ordering_success_implies_sorted_witness :
    2 ≤ ([txPendingNewer, txPendingOlder] : List JsonValue).length ∧
    validate_transaction_ordering [txPendingNewer, txPendingOlder] = (.ok (), []) ∧
    consecutiveNonIncreasing [txPendingNewer, txPendingOlder] ∧
    consecutiveNonIncreasing ([] : List JsonValue) :=
  ⟨by simp, rfl,
   (ordering_success_implies_sorted [txPendingNewer, txPendingOlder] (by simp) rfl
      [txPendingNewer, txPendingOlder] [] rfl rfl).1,
   (ordering_success_implies_sorted [txPendingNewer, txPendingOlder] (by simp) rfl
      [txPendingNewer, txPendingOlder] [] rfl rfl).2⟩

end TxSpec
